import Mathlib

/-!
Shallow embedding of the Alien Invasion game's simulation core
(settings.py, stats.py, ship.py, bullet.py, alien.py).

Modelling conventions:
- Python floats are modelled as exact rationals (ℚ); Python ints as ℤ/ℕ.
- pygame Rect coordinates are modelled as exact rationals as well: the
  source assigns float positions into rect fields, and all claims are
  about the arithmetic of those assignments, not about int truncation.
- Rendering, images, colors and the pygame event loop are out of scope;
  only the state mutated by the functions the claims cite is embedded.
- Methods that mutate `self` become functions from state to state.
-/

/-! ## settings.py -/

/-- `BulletSettings.__init__` fields (settings.py). -/
structure BulletSettings where
  speed : ℚ
  width : ℚ
  height : ℚ
  max_bullets : ℕ
  pass_through : Bool
  points : ℤ
  deriving Repr, DecidableEq

/-- `ShipSettings.__init__` fields (settings.py). -/
structure ShipSettings where
  speed : ℚ
  step_size : ℚ
  limit : ℕ
  deriving Repr, DecidableEq

/-- `AlienSettings.__init__` fields (settings.py). -/
structure AlienSettings where
  speed : ℚ
  direction : ℤ
  drop_speed : ℚ
  points : ℤ
  deriving Repr, DecidableEq

/-- `Settings.__init__` (settings.py). Screen settings, colors and image
paths are rendering data and are not part of the simulation state. -/
structure Settings where
  ship : ShipSettings
  bullet : BulletSettings
  alien : AlienSettings
  game_speed : ℚ
  time_penalty : ℤ
  deriving Repr, DecidableEq

def initialSettings : Settings :=
  { ship := { speed := 2.5, step_size := 3, limit := 3 }
    bullet := { speed := 10
                width := 30
                height := 15
                max_bullets := 2
                pass_through := false
                points := -1 }
    alien := { speed := 1, direction := 1, drop_speed := 2, points := 10 }
    game_speed := 1
    time_penalty := -1 }

/-- `Settings.reset_settings` (settings.py). -/
def Settings.reset_settings (s : Settings) : Settings :=
  { s with
    game_speed := 1
    bullet := { s.bullet with
                width := 30
                speed := 10
                max_bullets := 2
                pass_through := false
                points := -1 }
    alien := { s.alien with speed := 1, drop_speed := 2, points := 10 }
    ship := { s.ship with speed := 2.5 }
    time_penalty := -1 }

/-- `Settings.level_up` (settings.py): the statements are translated in
source order; the trailing `print` diagnostics are I/O and not modelled. -/
def Settings.level_up (s : Settings) (level : ℕ) : Settings :=
  let game_speed := s.game_speed + 0.2
  let time_penalty := s.time_penalty - 1
  let bullet_width := max (s.bullet.width - 5) 3
  let bullet_speed := s.bullet.speed * game_speed
  let bullet_max := s.bullet.max_bullets + 1
  let bullet_pt : Bool × ℤ :=
    if level ≤ 3 then (false, s.bullet.points) else (true, -2)
  let alien_speed := s.alien.speed + 1
  let alien_drop := min (s.alien.drop_speed * game_speed) 25
  let alien_points := s.alien.points + 2
  let ship_speed := min (s.ship.speed * game_speed) 17
  { s with
    game_speed := game_speed
    time_penalty := time_penalty
    bullet := { s.bullet with
                width := bullet_width
                speed := bullet_speed
                max_bullets := bullet_max
                pass_through := bullet_pt.1
                points := bullet_pt.2 }
    alien := { s.alien with
               speed := alien_speed
               drop_speed := alien_drop
               points := alien_points }
    ship := { s.ship with speed := ship_speed } }

/-! ## stats.py -/

/-- `Stats` state (stats.py). -/
structure Stats where
  high_score : ℤ
  ships_left : ℕ
  score : ℤ
  level : ℕ
  update_count : ℕ
  deriving Repr, DecidableEq

/-- `Stats.add_score` (stats.py): `score += points; score = max(score, 0)`. -/
def Stats.add_score (st : Stats) (points : ℤ) : Stats :=
  let score := st.score + points
  { st with score := max score 0 }

/-! ## ship.py -/

/-- Per-ship configuration pulled in `Ship.__init__` (ship.py):
`max_speed`, `accel`, `friction`, `_base_half_width` (half the base sprite
width) and the current screen width used for clamping. -/
structure ShipParams where
  max_speed : ℚ
  accel : ℚ
  friction : ℚ
  base_half_width : ℚ
  screen_width : ℚ
  deriving Repr, DecidableEq

/-- Mutable ship state (ship.py): `pos.x` is the midbottom anchor's x
coordinate, `vel.x` the horizontal velocity, plus the two movement flags.
`pos.y` is re-anchored to the screen bottom every frame and plays no part
in the claims. -/
structure Ship where
  posX : ℚ
  velX : ℚ
  moving_right : Bool
  moving_left : Bool
  deriving Repr, DecidableEq

/-- `Ship.update` (ship.py), horizontal part, for an effective `dt`
(the source substitutes a positive clock-derived dt when the argument is
non-positive; `dt` here is the value actually used):
input xor decides acceleration vs friction, then the velocity is clamped
to `[-max_speed, max_speed]`, the position integrated and clamped to
`[base_half_width, screen_width - base_half_width]`.
`_apply_transform` only rebuilds the image/rect/mask from `pos` and is
not simulation state. -/
def Ship.update (p : ShipParams) (s : Ship) (dt : ℚ) : Ship :=
  let v0 :=
    if xor s.moving_right s.moving_left then
      if s.moving_right then s.velX + p.accel * dt
      else s.velX - p.accel * dt
    else
      s.velX * max 0 (1 - p.friction * dt)
  let v1 := max (-p.max_speed) (min v0 p.max_speed)
  let x0 := s.posX + v1 * dt
  let left_bound := p.base_half_width
  let right_bound := p.screen_width - p.base_half_width
  let x1 := max left_bound (min right_bound x0)
  { s with posX := x1, velX := v1 }

/-! ## bullet.py -/

/-- `Bullet` state (bullet.py): the rect made in `__init__` from the
settings' width/height at spawn time, positioned by `rect.midtop =
ship.rect.midtop`, plus the float `y` and the `firing` flag. `rectX` is
the rect's left edge; `y` mirrors `rect.y` (the top edge). -/
structure Bullet where
  width : ℚ
  height : ℚ
  rectX : ℚ
  y : ℚ
  firing : Bool
  deriving Repr, DecidableEq

/-- `Bullet.__init__` (bullet.py): the rect takes the CURRENT settings'
width and height, and its midtop is placed at the ship's rect midtop
`(cx, top)`. -/
def Bullet.init (s : Settings) (ship_midtop : ℚ × ℚ) : Bullet :=
  { width := s.bullet.width
    height := s.bullet.height
    rectX := ship_midtop.1 - s.bullet.width / 2
    y := ship_midtop.2
    firing := false }

/-- `Bullet.update` (bullet.py): `self.y -= self.settings.bullet.speed` —
the speed is read from the SHARED settings at update time, not stored in
the bullet. -/
def Bullet.update (s : Settings) (b : Bullet) : Bullet :=
  { b with y := b.y - s.bullet.speed }

/-- `BulletGroup` state (bullet.py): the sprite group of live bullets. -/
structure BulletGroup where
  bullets : List Bullet
  deriving Repr, DecidableEq

/-- `BulletGroup.fire` (bullet.py): add a new bullet only when
`len(self.bullets) < settings.bullet.max_bullets`. -/
def BulletGroup.fire (s : Settings) (ship_midtop : ℚ × ℚ)
    (g : BulletGroup) : BulletGroup :=
  if g.bullets.length < s.bullet.max_bullets then
    { bullets := g.bullets ++ [Bullet.init s ship_midtop] }
  else g

/-- `BulletGroup.update` (bullet.py): move every bullet, then remove the
ones whose `rect.bottom <= 0` (the bottom edge is `y + height`). -/
def BulletGroup.update (s : Settings) (g : BulletGroup) : BulletGroup :=
  { bullets :=
      (g.bullets.map (Bullet.update s)).filter
        (fun b => !decide (b.y + b.height ≤ 0)) }

/-- The operations a frame may apply to the bullet group, for stating the
cap invariant over arbitrary interleavings of fires and updates. -/
inductive BulletOp where
  | fireOp (ship_midtop : ℚ × ℚ)
  | updateOp
  deriving Repr, DecidableEq

/-- Run a sequence of fire/update calls against a fixed settings object. -/
def runBulletOps (s : Settings) (g : BulletGroup) : List BulletOp → BulletGroup
  | [] => g
  | BulletOp.fireOp m :: rest => runBulletOps s (g.fire s m) rest
  | BulletOp.updateOp :: rest => runBulletOps s (g.update s) rest

/-! ## alien.py -/

/-- `Alien` state (alien.py): the float `x`, `y` set at creation and the
rect's `x`, `y`. `_create_alien` sets all four; `Alien.update` writes
`x` and copies it into `rectX`; `_change_fleet_direction` adds the drop
to `rectY` only. The sprite size is shared by all aliens (one image). -/
structure Alien where
  x : ℚ
  y : ℚ
  rectX : ℚ
  rectY : ℚ
  deriving Repr, DecidableEq

/-- `Alien.check_edges` (alien.py): `rect.right >= screen_rect.right or
rect.left <= 0`, with `rect.right = rectX + alien_width`. -/
def Alien.check_edges (screen_width alien_width : ℚ) (a : Alien) : Bool :=
  decide (screen_width ≤ a.rectX + alien_width) || decide (a.rectX ≤ 0)

/-- `Alien.update` (alien.py): `x += speed * direction; rect.x = x`. -/
def Alien.update (s : Settings) (a : Alien) : Alien :=
  let x := a.x + s.alien.speed * (s.alien.direction : ℚ)
  { a with x := x, rectX := x }

/-- `AlienFleet` state (alien.py): the group of live aliens. The shared
direction/speed/drop live in the settings; the play-area geometry is
passed explicitly. -/
structure AlienFleet where
  aliens : List Alien
  deriving Repr, DecidableEq

/-- `AlienFleet._create_alien` (alien.py): a fresh alien with `x`, `y`,
`rect.x`, `rect.y` all set to the given grid position. -/
def create_alien (pos : ℤ × ℤ) : Alien :=
  { x := (pos.1 : ℚ), y := (pos.2 : ℚ), rectX := (pos.1 : ℚ), rectY := (pos.2 : ℚ) }

/-- Inner `while` of `AlienFleet.build` (alien.py): the x positions of one
row, starting at `x` and stepping by `2 * alien_width` while
`x < play_area_width - 2 * alien_width`. The loop only terminates for a
positive alien width, so that bound is part of the guard here. -/
def buildRowXs (play_area_width alien_width : ℤ) (x : ℤ) : List ℤ :=
  if h : 0 < alien_width ∧ x < play_area_width - 2 * alien_width then
    x :: buildRowXs play_area_width alien_width (x + 2 * alien_width)
  else []
termination_by (play_area_width - 2 * alien_width - x).toNat
decreasing_by omega

/-- Outer `while` of `AlienFleet.build` (alien.py): rows starting at `y`,
stepping by `2 * alien_height` while `y < play_area_height - 3 *
alien_height`; each row restarts x at `alien_width`. -/
def buildRows (play_area_width play_area_height alien_width alien_height : ℤ)
    (y : ℤ) : List (ℤ × ℤ) :=
  if h : 0 < alien_height ∧ y < play_area_height - 3 * alien_height then
    (buildRowXs play_area_width alien_width alien_width).map (fun x => (x, y))
      ++ buildRows play_area_width play_area_height alien_width alien_height
           (y + 2 * alien_height)
  else []
termination_by (play_area_height - 3 * alien_height - y).toNat
decreasing_by omega

/-- The grid positions laid out by `AlienFleet.build` (alien.py):
`x, y` start at `alien_width, alien_height`. -/
def buildPositions (play_area_width play_area_height alien_width
    alien_height : ℤ) : List (ℤ × ℤ) :=
  buildRows play_area_width play_area_height alien_width alien_height
    alien_height

/-- `AlienFleet.build` (alien.py): create an alien at each grid position
and add it to the existing group (build does not clear first). -/
def AlienFleet.build (play_area_width play_area_height alien_width
    alien_height : ℤ) (f : AlienFleet) : AlienFleet :=
  { aliens := f.aliens
      ++ (buildPositions play_area_width play_area_height alien_width
            alien_height).map create_alien }

/-- `AlienFleet.clear` (alien.py): `self.aliens.empty()`. -/
def AlienFleet.clear (f : AlienFleet) : AlienFleet :=
  { aliens := [] }

/-- `AlienFleet._change_fleet_direction` (alien.py): every alien's
`rect.y` grows by the drop speed, then the shared direction is negated. -/
def change_fleet_direction (s : Settings) (f : AlienFleet) :
    Settings × AlienFleet :=
  ({ s with alien := { s.alien with direction := -s.alien.direction } },
   { aliens := f.aliens.map
       (fun a => { a with rectY := a.rectY + s.alien.drop_speed }) })

/-- `AlienFleet._check_fleet_edges` (alien.py): if ANY alien is at an
edge, reverse the whole fleet once (the `break` makes a single reversal
regardless of how many aliens touch the edge). -/
def check_fleet_edges (screen_width alien_width : ℚ) (s : Settings)
    (f : AlienFleet) : Settings × AlienFleet :=
  if f.aliens.any (Alien.check_edges screen_width alien_width) then
    change_fleet_direction s f
  else (s, f)

/-- `AlienFleet.update` (alien.py): edge check (with possible reversal and
drop) first, then every alien moves with the then-current direction.
`_check_if_hit_ship` and `_did_aliens_reach_bottom` only report conditions
to the game object and mutate no alien state; they are modelled separately
below. -/
def AlienFleet.update (screen_width alien_width : ℚ) (s : Settings)
    (f : AlienFleet) : Settings × AlienFleet :=
  let sf := check_fleet_edges screen_width alien_width s f
  (sf.1, { aliens := sf.2.aliens.map (Alien.update sf.1) })

/-- `AlienFleet._did_aliens_reach_bottom` (alien.py): some alien's
`rect.bottom` is at or below the play area's bottom. -/
def did_aliens_reach_bottom (alien_height play_area_bottom : ℚ)
    (f : AlienFleet) : Bool :=
  f.aliens.any (fun a => decide (play_area_bottom ≤ a.rectY + alien_height))

/-- `AlienFleet.is_empty` (alien.py). -/
def AlienFleet.is_empty (f : AlienFleet) : Bool :=
  f.aliens.length = 0

/-! ## Concrete states used by witnesses -/

/-- `Stats.reset_stats` applied to a fresh session (stats.py):
`ships_left = limit, score = 0, level = 1, update_count = 0`. -/
def initialStats : Stats :=
  { high_score := 0
    ships_left := initialSettings.ship.limit
    score := 0
    level := 1
    update_count := 0 }

/-- The ship parameters of the source's defaults (`_DEFAULT_SPEED_PPS`,
`_DEFAULT_ACCEL_PPS2`, `_DEFAULT_FRICTION`), the 64-px-wide fallback
sprite and the 1280-px-wide screen of `ScreenSettings`. -/
def defaultShipParams : ShipParams :=
  { max_speed := 480
    accel := 1800
    friction := 8
    base_half_width := 32
    screen_width := 1280 }

/-- A ship centered at rest, as placed by `Ship.center`. -/
def centeredShip : Ship :=
  { posX := 640, velX := 0, moving_right := false, moving_left := false }

/-- A one-alien fleet sitting well inside a wide screen. -/
def innerFleet : AlienFleet :=
  { aliens := [{ x := 30, y := 30, rectX := 30, rectY := 30 }] }

/-! ## Claim theorems: settings and stats -/

/-- C8: `level_up` increments the projectile capacity by one, shrinks the
projectile width by 5 with a floor of 3, scales alien drop-speed by the
updated game-speed multiplier capped at 25, scales ship speed by the updated
game-speed multiplier capped at 17, increases alien speed by 1 and alien
points by 2, and enables pass-through (setting the projectile point value
to -2) exactly when the level argument exceeds 3. -/
theorem level_up_transform (s : Settings) (level : ℕ) :
    (s.level_up level).bullet.max_bullets = s.bullet.max_bullets + 1 ∧
    (s.level_up level).bullet.width = max (s.bullet.width - 5) 3 ∧
    (s.level_up level).alien.drop_speed
      = min (s.alien.drop_speed * (s.game_speed + 0.2)) 25 ∧
    (s.level_up level).ship.speed
      = min (s.ship.speed * (s.game_speed + 0.2)) 17 ∧
    (s.level_up level).alien.speed = s.alien.speed + 1 ∧
    (s.level_up level).alien.points = s.alien.points + 2 ∧
    ((s.level_up level).bullet.pass_through = true ↔ 3 < level) ∧
    (3 < level → (s.level_up level).bullet.points = -2) ∧
    (level ≤ 3 → (s.level_up level).bullet.points = s.bullet.points) := by
  by_cases h : level ≤ 3
  · have h' : ¬ 3 < level := by omega
    simp [Settings.level_up, h, h']
  · have h' : 3 < level := by omega
    simp [Settings.level_up, h, h']

/-- Witness for C8 at a concrete state and level. -/
theorem level_up_transform_witness :
    (initialSettings.level_up 4).bullet.max_bullets
        = initialSettings.bullet.max_bullets + 1 ∧
    (initialSettings.level_up 4).bullet.width
        = max (initialSettings.bullet.width - 5) 3 ∧
    (initialSettings.level_up 4).alien.drop_speed
      = min (initialSettings.alien.drop_speed * (initialSettings.game_speed + 0.2)) 25 ∧
    (initialSettings.level_up 4).ship.speed
      = min (initialSettings.ship.speed * (initialSettings.game_speed + 0.2)) 17 ∧
    (initialSettings.level_up 4).alien.speed = initialSettings.alien.speed + 1 ∧
    (initialSettings.level_up 4).alien.points = initialSettings.alien.points + 2 ∧
    ((initialSettings.level_up 4).bullet.pass_through = true ↔ 3 < 4) ∧
    (3 < 4 → (initialSettings.level_up 4).bullet.points = -2) ∧
    (4 ≤ 3 → (initialSettings.level_up 4).bullet.points
        = initialSettings.bullet.points) :=
  level_up_transform initialSettings 4

/-- C9: for a non-negative score and any points value, `add_score` leaves
the score at `max(score + points, 0)`, never negative; a -1 penalty at
score 0 leaves the score at 0. -/
theorem add_score_floor (st : Stats) (points : ℤ) (h : 0 ≤ st.score) :
    (st.add_score points).score = max (st.score + points) 0 ∧
    0 ≤ (st.add_score points).score ∧
    (st.score = 0 → (st.add_score (-1)).score = 0) := by
  refine ⟨rfl, le_max_right _ _, fun h0 => ?_⟩
  simp [Stats.add_score, h0]

/-- Witness for C9 at score 0 with the -1 time penalty. -/
theorem add_score_floor_witness :
    (initialStats.add_score (-1)).score = max (initialStats.score + (-1)) 0 ∧
    0 ≤ (initialStats.add_score (-1)).score ∧
    (initialStats.score = 0 → (initialStats.add_score (-1)).score = 0) :=
  add_score_floor initialStats (-1) (by decide)

/-! ## Claim theorems: ship -/

/-- `Ship.update` stores into `posX` exactly the clamp of the integrated
position. -/
lemma ship_update_posX (p : ShipParams) (s : Ship) (dt : ℚ) :
    (Ship.update p s dt).posX
      = max p.base_half_width
          (min (p.screen_width - p.base_half_width)
            (s.posX + (Ship.update p s dt).velX * dt)) := rfl

/-- `Ship.update` stores into `velX` exactly the clamp of the accelerated
velocity. -/
lemma ship_update_velX (p : ShipParams) (s : Ship) (dt : ℚ) :
    (Ship.update p s dt).velX
      = max (-p.max_speed)
          (min (if xor s.moving_right s.moving_left then
                  if s.moving_right then s.velX + p.accel * dt
                  else s.velX - p.accel * dt
                else s.velX * max 0 (1 - p.friction * dt))
            p.max_speed) := rfl

/-- C5: after every `Ship.update`, for every dt and movement flags, the
ship's left edge `posX - base_half_width` lies within
`[0, screen_width - ship_width]`, where `ship_width = 2 * base_half_width`
(the ship fits on the screen). -/
theorem ship_position_clamped (p : ShipParams) (s : Ship) (dt : ℚ)
    (hfit : 2 * p.base_half_width ≤ p.screen_width) :
    0 ≤ (Ship.update p s dt).posX - p.base_half_width ∧
    (Ship.update p s dt).posX - p.base_half_width
      ≤ p.screen_width - 2 * p.base_half_width := by
  have h1 : p.base_half_width ≤ p.screen_width - p.base_half_width := by
    linarith
  rw [ship_update_posX]
  constructor
  · have := le_max_left p.base_half_width
      (min (p.screen_width - p.base_half_width)
        (s.posX + (Ship.update p s dt).velX * dt))
    linarith
  · have := max_le h1
      (min_le_left (p.screen_width - p.base_half_width)
        (s.posX + (Ship.update p s dt).velX * dt))
    linarith

/-- Witness for C5 at the default parameters, one 60 Hz frame. -/
theorem ship_position_clamped_witness :
    0 ≤ (Ship.update defaultShipParams centeredShip (1/60)).posX
          - defaultShipParams.base_half_width ∧
    (Ship.update defaultShipParams centeredShip (1/60)).posX
          - defaultShipParams.base_half_width
      ≤ defaultShipParams.screen_width
          - 2 * defaultShipParams.base_half_width :=
  ship_position_clamped defaultShipParams centeredShip (1/60)
    (by norm_num [defaultShipParams])

/-- C10: after every `Ship.update` with dt > 0, any movement flags and a
prior velocity within `[-max_speed, max_speed]`, the stored velocity stays
within `[-max_speed, max_speed]`. -/
theorem ship_velocity_bounded (p : ShipParams) (s : Ship) (dt : ℚ)
    (hdt : 0 < dt)
    (hlo : -p.max_speed ≤ s.velX) (hhi : s.velX ≤ p.max_speed) :
    -p.max_speed ≤ (Ship.update p s dt).velX ∧
    (Ship.update p s dt).velX ≤ p.max_speed := by
  rw [ship_update_velX]
  exact ⟨le_max_left _ _, max_le (by linarith) (min_le_right _ _)⟩

/-- Witness for C10 at the default parameters, one 60 Hz frame. -/
theorem ship_velocity_bounded_witness :
    -defaultShipParams.max_speed
        ≤ (Ship.update defaultShipParams centeredShip (1/60)).velX ∧
    (Ship.update defaultShipParams centeredShip (1/60)).velX
        ≤ defaultShipParams.max_speed :=
  ship_velocity_bounded defaultShipParams centeredShip (1/60)
    (by norm_num) (by norm_num [defaultShipParams, centeredShip])
    (by norm_num [defaultShipParams, centeredShip])

/-! ## Claim theorems: bullets -/

/-- One fire or update call never pushes the live count past the cap. -/
lemma runBulletOps_length_le (s : Settings) (ops : List BulletOp) :
    ∀ g : BulletGroup, g.bullets.length ≤ s.bullet.max_bullets →
      (runBulletOps s g ops).bullets.length ≤ s.bullet.max_bullets := by
  induction ops with
  | nil => intro g hg; exact hg
  | cons op rest ih =>
    intro g hg
    cases op with
    | fireOp m =>
      refine ih _ ?_
      unfold BulletGroup.fire
      split
      · next hlt => simpa using hlt
      · exact hg
    | updateOp =>
      refine ih _ ?_
      calc (g.update s).bullets.length
          ≤ (g.bullets.map (Bullet.update s)).length :=
            List.length_filter_le _ _
        _ = g.bullets.length := List.length_map _ _
        _ ≤ s.bullet.max_bullets := hg

/-- C3: `fire` is a no-op at or above the cap; below the cap it adds
exactly one bullet whose rect midtop is the ship's rect midtop; and over
any sequence of fire/update calls the live count never exceeds the cap. -/
theorem bullet_cap_invariant (s : Settings) (m : ℚ × ℚ) (g : BulletGroup)
    (ops : List BulletOp) :
    (s.bullet.max_bullets ≤ g.bullets.length → g.fire s m = g) ∧
    (g.bullets.length < s.bullet.max_bullets →
      (g.fire s m).bullets = g.bullets ++ [Bullet.init s m] ∧
      (Bullet.init s m).rectX + (Bullet.init s m).width / 2 = m.1 ∧
      (Bullet.init s m).y = m.2) ∧
    (g.bullets.length ≤ s.bullet.max_bullets →
      (runBulletOps s g ops).bullets.length ≤ s.bullet.max_bullets) := by
  refine ⟨fun hge => ?_, fun hlt => ?_, runBulletOps_length_le s ops g⟩
  · unfold BulletGroup.fire
    rw [if_neg (by omega)]
  · refine ⟨?_, by simp [Bullet.init], rfl⟩
    unfold BulletGroup.fire
    rw [if_pos hlt]

/-- Witness for C3: from an empty group with the initial settings (cap 2),
fire three times; the count stays at the cap. -/
theorem bullet_cap_invariant_witness :
    (initialSettings.bullet.max_bullets ≤ (BulletGroup.mk []).bullets.length →
      (BulletGroup.mk []).fire initialSettings (640, 100) = BulletGroup.mk []) ∧
    ((BulletGroup.mk []).bullets.length < initialSettings.bullet.max_bullets →
      ((BulletGroup.mk []).fire initialSettings (640, 100)).bullets
          = (BulletGroup.mk []).bullets
              ++ [Bullet.init initialSettings (640, 100)] ∧
      (Bullet.init initialSettings (640, 100)).rectX
          + (Bullet.init initialSettings (640, 100)).width / 2 = 640 ∧
      (Bullet.init initialSettings (640, 100)).y = 100) ∧
    ((BulletGroup.mk []).bullets.length ≤ initialSettings.bullet.max_bullets →
      (runBulletOps initialSettings (BulletGroup.mk [])
          [BulletOp.fireOp (640, 100), BulletOp.fireOp (640, 100),
           BulletOp.fireOp (640, 100)]).bullets.length
        ≤ initialSettings.bullet.max_bullets) :=
  bullet_cap_invariant initialSettings (640, 100) (BulletGroup.mk [])
    [BulletOp.fireOp (640, 100), BulletOp.fireOp (640, 100),
     BulletOp.fireOp (640, 100)]

/-- C6: `BulletGroup.update` moves every bullet up by the current speed
and keeps exactly the moved bullets whose bottom edge is still below the
top boundary; no survivor has its bottom edge at or above the top; and a
permutation of the group produces a permutation of the result (removal
order is irrelevant). -/
theorem bullet_group_update_spec (s : Settings) (g : BulletGroup) :
    (∀ b' : Bullet, b' ∈ (g.update s).bullets ↔
      ∃ b ∈ g.bullets, b' = Bullet.update s b ∧ 0 < b'.y + b'.height) ∧
    (∀ b : Bullet, (Bullet.update s b).y = b.y - s.bullet.speed ∧
      (Bullet.update s b).height = b.height) ∧
    (∀ b' ∈ (g.update s).bullets, 0 < b'.y + b'.height) ∧
    (∀ g₂ : BulletGroup, g.bullets.Perm g₂.bullets →
      (g.update s).bullets.Perm (g₂.update s).bullets) := by
  refine ⟨fun b' => ?_, fun b => ⟨rfl, rfl⟩, fun b' hb' => ?_, fun g₂ h => ?_⟩
  · simp only [BulletGroup.update, List.mem_filter, List.mem_map,
      Bool.not_eq_true', decide_eq_false_iff_not, not_le]
    constructor
    · rintro ⟨⟨b, hb, rfl⟩, hpos⟩
      exact ⟨b, hb, rfl, hpos⟩
    · rintro ⟨b, hb, rfl, hpos⟩
      exact ⟨⟨b, hb, rfl⟩, hpos⟩
  · have := (List.mem_filter.mp hb').2
    simpa using this
  · exact (h.map (Bullet.update s)).filter _

/-- Witness for C6 on a two-bullet group: one bullet survives one update,
the other (already at the top) is culled. -/
theorem bullet_group_update_spec_witness :
    (∀ b' : Bullet,
      b' ∈ ((BulletGroup.mk [Bullet.init initialSettings (640, 100),
              { width := 30, height := 15, rectX := 625, y := -20,
                firing := false }]).update initialSettings).bullets ↔
      ∃ b ∈ (BulletGroup.mk [Bullet.init initialSettings (640, 100),
              { width := 30, height := 15, rectX := 625, y := -20,
                firing := false }]).bullets,
        b' = Bullet.update initialSettings b ∧ 0 < b'.y + b'.height) ∧
    (∀ b : Bullet,
      (Bullet.update initialSettings b).y = b.y - initialSettings.bullet.speed ∧
      (Bullet.update initialSettings b).height = b.height) ∧
    (∀ b' ∈ ((BulletGroup.mk [Bullet.init initialSettings (640, 100),
              { width := 30, height := 15, rectX := 625, y := -20,
                firing := false }]).update initialSettings).bullets,
      0 < b'.y + b'.height) ∧
    (∀ g₂ : BulletGroup,
      (BulletGroup.mk [Bullet.init initialSettings (640, 100),
        { width := 30, height := 15, rectX := 625, y := -20,
          firing := false }]).bullets.Perm g₂.bullets →
      ((BulletGroup.mk [Bullet.init initialSettings (640, 100),
          { width := 30, height := 15, rectX := 625, y := -20,
            firing := false }]).update initialSettings).bullets.Perm
        ((g₂.update initialSettings).bullets)) :=
  bullet_group_update_spec initialSettings
    (BulletGroup.mk [Bullet.init initialSettings (640, 100),
      { width := 30, height := 15, rectX := 625, y := -20, firing := false }])

/-- C2 counterexample: a bullet spawned under the initial settings moves
by 10 per frame if the settings stay put, but by 12 per frame once
`level_up` has scaled the shared bullet speed — the post-spawn mutation
DOES change the projectile's subsequent motion, so its trajectory is not
baked in at spawn time. -/
theorem bullet_speed_not_baked :
    (Bullet.update (initialSettings.level_up 1)
        (Bullet.init initialSettings (640, 100))).y
      ≠ (Bullet.update initialSettings
          (Bullet.init initialSettings (640, 100))).y := by
  norm_num [Bullet.update, Bullet.init, Settings.level_up, initialSettings]

/-- C2 (amended): a projectile's width, height and horizontal position are
fixed at spawn time and untouched by updates under any later settings; its
per-frame motion, however, uses the speed read from the settings AT UPDATE
TIME, so two runs that agree at spawn produce identical sizes but their
positions after an update agree exactly when the then-current speeds
agree. -/
theorem bullet_size_fixed_speed_live (s₁ s₂ : Settings) (b : Bullet) :
    (Bullet.update s₁ b).width = b.width ∧
    (Bullet.update s₁ b).height = b.height ∧
    (Bullet.update s₁ b).rectX = b.rectX ∧
    (Bullet.update s₁ b).y = b.y - s₁.bullet.speed ∧
    ((Bullet.update s₁ b).y = (Bullet.update s₂ b).y ↔
      s₁.bullet.speed = s₂.bullet.speed) := by
  refine ⟨rfl, rfl, rfl, rfl, ?_⟩
  simp only [Bullet.update]
  exact sub_right_inj

/-! ## Claim theorems: alien fleet -/

/-- C1: one `AlienFleet.update` on a non-empty fleet either (a) reverses
nothing — no alien was at an edge, the shared direction is unchanged, every
alien's `x`/`rect.x` advances by exactly `speed * direction` and its
vertical position is untouched — or (b) reverses atomically — some alien
was at an edge, the shared direction is negated, every alien's `rect.y`
grows by exactly `drop_speed`, and the same frame's horizontal motion
already uses the new (post-flip) direction. -/
theorem fleet_update_atomic (screen_width alien_width : ℚ) (s : Settings)
    (f : AlienFleet) (hne : f.aliens ≠ []) :
    (f.aliens.any (Alien.check_edges screen_width alien_width) = false ∧
      (AlienFleet.update screen_width alien_width s f).1.alien.direction
        = s.alien.direction ∧
      (AlienFleet.update screen_width alien_width s f).2.aliens
        = f.aliens.map (fun a =>
            { a with
              x := a.x + s.alien.speed * (s.alien.direction : ℚ)
              rectX := a.x + s.alien.speed * (s.alien.direction : ℚ) })) ∨
    (f.aliens.any (Alien.check_edges screen_width alien_width) = true ∧
      (AlienFleet.update screen_width alien_width s f).1.alien.direction
        = -s.alien.direction ∧
      (AlienFleet.update screen_width alien_width s f).2.aliens
        = f.aliens.map (fun a =>
            { a with
              x := a.x + s.alien.speed * ((-s.alien.direction : ℤ) : ℚ)
              rectX := a.x + s.alien.speed * ((-s.alien.direction : ℤ) : ℚ)
              rectY := a.rectY + s.alien.drop_speed })) := by
  by_cases h : f.aliens.any (Alien.check_edges screen_width alien_width) = true
  · refine Or.inr ⟨h, ?_, ?_⟩
    · simp [AlienFleet.update, check_fleet_edges, h, change_fleet_direction]
    · simp only [AlienFleet.update, check_fleet_edges, h, if_pos,
        change_fleet_direction, List.map_map]
      rfl
  · refine Or.inl ⟨by simpa using h, ?_, ?_⟩
    · simp [AlienFleet.update, check_fleet_edges, h]
    · simp only [AlienFleet.update, check_fleet_edges, h, if_neg,
        Bool.false_eq_true, if_false]
      rfl

/-- Witness for C1 on a one-alien fleet away from the edges. -/
theorem fleet_update_atomic_witness :
    (innerFleet.aliens.any (Alien.check_edges 1280 30) = false ∧
      (AlienFleet.update 1280 30 initialSettings innerFleet).1.alien.direction
        = initialSettings.alien.direction ∧
      (AlienFleet.update 1280 30 initialSettings innerFleet).2.aliens
        = innerFleet.aliens.map (fun a =>
            { a with
              x := a.x + initialSettings.alien.speed
                    * (initialSettings.alien.direction : ℚ)
              rectX := a.x + initialSettings.alien.speed
                    * (initialSettings.alien.direction : ℚ) })) ∨
    (innerFleet.aliens.any (Alien.check_edges 1280 30) = true ∧
      (AlienFleet.update 1280 30 initialSettings innerFleet).1.alien.direction
        = -initialSettings.alien.direction ∧
      (AlienFleet.update 1280 30 initialSettings innerFleet).2.aliens
        = innerFleet.aliens.map (fun a =>
            { a with
              x := a.x + initialSettings.alien.speed
                    * ((-initialSettings.alien.direction : ℤ) : ℚ)
              rectX := a.x + initialSettings.alien.speed
                    * ((-initialSettings.alien.direction : ℤ) : ℚ)
              rectY := a.rectY + initialSettings.alien.drop_speed })) :=
  fleet_update_atomic 1280 30 initialSettings innerFleet (by simp [innerFleet])

/-- C7: `clear()` leaves no aliens behind, and `clear()` followed by
`build()` yields exactly the layout of a first `build()` on a fresh fleet,
namely one alien per grid position. -/
theorem fleet_rebuild_idempotent (play_area_width play_area_height
    alien_width alien_height : ℤ) (f : AlienFleet) :
    f.clear.aliens = [] ∧
    AlienFleet.build play_area_width play_area_height alien_width
        alien_height f.clear
      = AlienFleet.build play_area_width play_area_height alien_width
          alien_height (AlienFleet.mk []) ∧
    (AlienFleet.build play_area_width play_area_height alien_width
        alien_height f.clear).aliens
      = (buildPositions play_area_width play_area_height alien_width
          alien_height).map create_alien := by
  refine ⟨rfl, rfl, ?_⟩
  simp [AlienFleet.build, AlienFleet.clear]

/-- Every element the inner `build` loop emits is `x + 2*alien_width*k`
for some k, below the right stopping bound. -/
lemma buildRowXs_sound (W w a : ℤ) :
    ∀ x, a ∈ buildRowXs W w x →
      0 < w ∧ ∃ k : ℕ, a = x + 2 * w * k ∧ a < W - 2 * w := by
  intro x
  induction x using buildRowXs.induct W w with
  | case1 x hcond ih =>
    intro ha
    rw [buildRowXs, dif_pos hcond] at ha
    rcases List.mem_cons.mp ha with rfl | ha'
    · exact ⟨hcond.1, 0, by simp, hcond.2⟩
    · obtain ⟨hw, k, hk, hlt⟩ := ih ha'
      refine ⟨hw, k + 1, ?_, hlt⟩
      rw [hk]; push_cast; ring
  | case2 x hcond =>
    intro ha
    rw [buildRowXs, dif_neg hcond] at ha
    simp at ha

/-- Conversely the inner loop emits every `x + 2*alien_width*k` below the
stopping bound. -/
lemma buildRowXs_complete (W w : ℤ) (hw : 0 < w) :
    ∀ (k : ℕ) (x : ℤ), x + 2 * w * k < W - 2 * w →
      x + 2 * w * k ∈ buildRowXs W w x := by
  intro k
  induction k with
  | zero =>
    intro x hx
    simp only [Nat.cast_zero, mul_zero, add_zero] at hx ⊢
    rw [buildRowXs, dif_pos ⟨hw, hx⟩]
    exact List.mem_cons_self _ _
  | succ n ih =>
    intro x hx
    have hn : (0:ℤ) ≤ (n:ℤ) := Int.natCast_nonneg n
    have hcast : ((n + 1 : ℕ) : ℤ) = (n:ℤ) + 1 := by push_cast; ring
    rw [hcast] at hx ⊢
    have hwn : (0:ℤ) ≤ w * (n:ℤ) := mul_nonneg hw.le hn
    have hxlt : x < W - 2 * w := by nlinarith
    rw [buildRowXs, dif_pos ⟨hw, hxlt⟩]
    apply List.mem_cons_of_mem
    have h2 : (x + 2 * w) + 2 * w * (n:ℤ) < W - 2 * w := by linarith
    have e : x + 2 * w * ((n:ℤ) + 1) = (x + 2 * w) + 2 * w * (n:ℤ) := by ring
    rw [e]
    exact ih (x + 2 * w) h2

/-- Membership in one row of the grid. -/
lemma mem_buildRowXs (W w x a : ℤ) :
    a ∈ buildRowXs W w x ↔
      0 < w ∧ ∃ k : ℕ, a = x + 2 * w * k ∧ a < W - 2 * w := by
  constructor
  · exact buildRowXs_sound W w a x
  · rintro ⟨hw, k, rfl, hlt⟩
    exact buildRowXs_complete W w hw k x hlt

/-- Every position the outer `build` loop emits is in a row
`y + 2*alien_height*j` below the bottom stopping bound, with its x emitted
by the inner loop started at `alien_width`. -/
lemma buildRows_sound (W H w h p q : ℤ) :
    ∀ y, (p, q) ∈ buildRows W H w h y →
      0 < h ∧ (∃ j : ℕ, q = y + 2 * h * j ∧ q < H - 3 * h) ∧
        p ∈ buildRowXs W w w := by
  intro y
  induction y using buildRows.induct W H w h with
  | case1 y hcond ih =>
    intro hm
    rw [buildRows, dif_pos hcond] at hm
    rcases List.mem_append.mp hm with hrow | hrest
    · obtain ⟨x, hx, heq⟩ := List.mem_map.mp hrow
      obtain ⟨rfl, rfl⟩ := Prod.mk.injEq x y p q ▸ heq
      exact ⟨hcond.1, ⟨0, by simp, hcond.2⟩, hx⟩
    · obtain ⟨hh, ⟨j, hj, hlt⟩, hp⟩ := ih hrest
      refine ⟨hh, ⟨j + 1, ?_, hlt⟩, hp⟩
      rw [hj]; push_cast; ring
  | case2 y hcond =>
    intro hm
    rw [buildRows, dif_neg hcond] at hm
    simp at hm

/-- Conversely the outer loop emits every such position. -/
lemma buildRows_complete (W H w h : ℤ) (hh : 0 < h) (p : ℤ)
    (hp : p ∈ buildRowXs W w w) :
    ∀ (j : ℕ) (y : ℤ), y + 2 * h * j < H - 3 * h →
      (p, y + 2 * h * j) ∈ buildRows W H w h y := by
  intro j
  induction j with
  | zero =>
    intro y hy
    simp only [Nat.cast_zero, mul_zero, add_zero] at hy ⊢
    rw [buildRows, dif_pos ⟨hh, hy⟩]
    exact List.mem_append_left _ (List.mem_map.mpr ⟨p, hp, rfl⟩)
  | succ n ih =>
    intro y hy
    have hn : (0:ℤ) ≤ (n:ℤ) := Int.natCast_nonneg n
    have hcast : ((n + 1 : ℕ) : ℤ) = (n:ℤ) + 1 := by push_cast; ring
    rw [hcast] at hy ⊢
    have hhn : (0:ℤ) ≤ h * (n:ℤ) := mul_nonneg hh.le hn
    have hylt : y < H - 3 * h := by nlinarith
    rw [buildRows, dif_pos ⟨hh, hylt⟩]
    apply List.mem_append_right
    have h2 : (y + 2 * h) + 2 * h * (n:ℤ) < H - 3 * h := by linarith
    have e : y + 2 * h * ((n:ℤ) + 1) = (y + 2 * h) + 2 * h * (n:ℤ) := by ring
    rw [e]
    exact ih (y + 2 * h) h2

/-- C4: for positive alien dimensions, `build` creates aliens exactly at
the grid positions with x in `{w, 3w, 5w, ...}` stopped at
`play_width - 2w` and y in `{h, 3h, 5h, ...}` stopped at
`play_height - 3h`; the fleet built on a fresh group is exactly one alien
per such position, a fixed function of the four dimensions. -/
theorem build_grid_layout (play_area_width play_area_height alien_width
    alien_height p q : ℤ)
    (hw : 0 < alien_width) (hh : 0 < alien_height) :
    ((p, q) ∈ buildPositions play_area_width play_area_height alien_width
        alien_height ↔
      (∃ k : ℕ, p = alien_width + 2 * alien_width * k ∧
        p < play_area_width - 2 * alien_width) ∧
      (∃ j : ℕ, q = alien_height + 2 * alien_height * j ∧
        q < play_area_height - 3 * alien_height)) ∧
    (AlienFleet.build play_area_width play_area_height alien_width
        alien_height (AlienFleet.mk [])).aliens
      = (buildPositions play_area_width play_area_height alien_width
          alien_height).map create_alien := by
  refine ⟨?_, by simp [AlienFleet.build]⟩
  unfold buildPositions
  constructor
  · intro hm
    obtain ⟨_, ⟨j, hj, hjlt⟩, hp⟩ :=
      buildRows_sound play_area_width play_area_height alien_width
        alien_height p q alien_height hm
    obtain ⟨_, k, hk, hklt⟩ :=
      buildRowXs_sound play_area_width alien_width p alien_width hp
    exact ⟨⟨k, hk, hklt⟩, ⟨j, hj, hjlt⟩⟩
  · rintro ⟨⟨k, rfl, hklt⟩, ⟨j, rfl, hjlt⟩⟩
    exact buildRows_complete play_area_width play_area_height alien_width
      alien_height hh _
      (buildRowXs_complete play_area_width alien_width hw k alien_width hklt)
      j alien_height hjlt

/-- Witness for C4: the 1280-wide screen with a 100-px bottom bar
(play area 1280 x 620) and a 30 x 30 alien; the top-left alien (30, 30)
is in the layout. -/
theorem build_grid_layout_witness :
    (((30:ℤ), (30:ℤ)) ∈ buildPositions 1280 620 30 30 ↔
      (∃ k : ℕ, (30:ℤ) = 30 + 2 * 30 * k ∧ (30:ℤ) < 1280 - 2 * 30) ∧
      (∃ j : ℕ, (30:ℤ) = 30 + 2 * 30 * j ∧ (30:ℤ) < 620 - 3 * 30)) ∧
    (AlienFleet.build 1280 620 30 30 (AlienFleet.mk [])).aliens
      = (buildPositions 1280 620 30 30).map create_alien :=
  build_grid_layout 1280 620 30 30 30 30 (by decide) (by decide)
